import Mathlib

/-!
Verification of the swagger-mongoose-crud CRUD controller layer.

The development shallowly embeds the algorithmic parts of
`src/crud.controller.js` and `src/index.js`:

* JavaScript/JSON values (`JsVal`) with JS truthiness, lodash `isEqual`,
  `JSON.parse(JSON.stringify(.))` normalization and the `_.mergeWith`
  merge driven by the controller's `_customizer`;
* the filter normalizer (`CreateRegexp`, `ResolveArray`, `FilterParse`);
* the aggregation-pipeline denylist check (`validateAggregation`);
* the document store, soft-delete metadata and the version-bumping
  pre-save hook injected by `injectDefaults`;
* the request handlers `_update`, `_destroy`, `_markAsDeleted`,
  `bulkRemove` (bulk destroy), `_aggregate`, `getResponseObject` and the
  read-update-check-commit engine `_rucc`.

Stateful handlers are embedded as pure functions from an explicit store
(a list of documents) to a response together with the successor store.
-/

/-- JavaScript values as they occur in filters, payloads and documents:
JSON scalars, `undefined`, compiled `RegExp` objects (source text plus the
case-insensitivity flag), arrays and plain objects (field lists in property
order). -/
inductive JsVal where
  | str (s : String)
  | num (n : Int)
  | boolean (b : Bool)
  | null
  | undefined
  | regex (source : String) (ignoreCase : Bool)
  | arr (elems : List JsVal)
  | obj (fields : List (String × JsVal))

/-- JS truthiness: `""`, `0`, `false`, `null` and `undefined` are falsy;
every other string/number/boolean and every object (including `[]`, some
empty object and every RegExp) is truthy. -/
def truthy : JsVal → Bool
  | .str s => s != ""
  | .num n => n != 0
  | .boolean b => b
  | .null => false
  | .undefined => false
  | .regex _ _ => true
  | .arr _ => true
  | .obj _ => true

mutual
/-- Structural value equality, embedding lodash `_.isEqual` on the values
of this development (deep equality of scalars, arrays and plain objects;
regexes equal when source and flags agree). -/
def jsEqVal : JsVal → JsVal → Bool
  | .str a, .str b => a == b
  | .num a, .num b => a == b
  | .boolean a, .boolean b => a == b
  | .null, .null => true
  | .undefined, .undefined => true
  | .regex s1 i1, .regex s2 i2 => s1 == s2 && i1 == i2
  | .arr a, .arr b => jsEqList a b
  | .obj a, .obj b => jsEqFields a b
  | _, _ => false
/-- Elementwise equality of arrays for `jsEqVal`. -/
def jsEqList : List JsVal → List JsVal → Bool
  | [], [] => true
  | x :: xs, y :: ys => jsEqVal x y && jsEqList xs ys
  | _, _ => false
/-- Fieldwise equality of plain objects for `jsEqVal` (property order and
names must agree, as they do for the snapshots compared in the source). -/
def jsEqFields : List (String × JsVal) → List (String × JsVal) → Bool
  | [], [] => true
  | (k1, v1) :: xs, (k2, v2) :: ys => k1 == k2 && jsEqVal v1 v2 && jsEqFields xs ys
  | _, _ => false
end

mutual
/-- Embedding of `JSON.parse(JSON.stringify(x))` as used by `_update` and
`_updateMapper` before comparing documents: object fields holding
`undefined` are dropped, `undefined` array elements serialize as `null`,
and a `RegExp` serializes as an empty plain object.  The call sites only
apply it to documents and merge results, never to a top-level
`undefined`. -/
def jsonRoundTrip : JsVal → JsVal
  | .str s => .str s
  | .num n => .num n
  | .boolean b => .boolean b
  | .null => .null
  | .undefined => .null
  | .regex _ _ => .obj []
  | .arr elems => .arr (jsonRoundTripList elems)
  | .obj fields => .obj (jsonRoundTripFields fields)
/-- Array part of `jsonRoundTrip`: `undefined` elements become `null`. -/
def jsonRoundTripList : List JsVal → List JsVal
  | [] => []
  | x :: rest => jsonRoundTrip x :: jsonRoundTripList rest
/-- Object part of `jsonRoundTrip`: fields holding `undefined` are
dropped by `JSON.stringify`. -/
def jsonRoundTripFields : List (String × JsVal) → List (String × JsVal)
  | [] => []
  | (_k, .undefined) :: rest => jsonRoundTripFields rest
  | (k, v) :: rest => (k, jsonRoundTrip v) :: jsonRoundTripFields rest
end

/-- Property read `o[k]` on a plain-object field list: the first binding of
`k`, or `undefined` when the key is absent. -/
def getField (o : List (String × JsVal)) (k : String) : JsVal :=
  match o.lookup k with
  | some v => v
  | none => JsVal.undefined

/-- Property write `o[k] = mv` on a plain-object field list: overwrites the
first binding of `k` in place, or appends the new key last, matching JS
property-order semantics. -/
def setField : List (String × JsVal) → String → JsVal → List (String × JsVal)
  | [], k, mv => [(k, mv)]
  | (k', v) :: rest, k, mv =>
      if k' = k then (k', mv) :: rest else (k', v) :: setField rest k mv

mutual
/-- Merge of one source value into one destination value, embedding
`_.mergeWith(objValue, srcValue, self._customizer)` from
crud.controller.js.  The customizer replaces array destinations wholesale
by the source value; lodash itself skips `undefined` source values, merges
plain objects recursively and otherwise assigns the source value. -/
def mergeVal : JsVal → JsVal → JsVal
  | o, .undefined => o
  | .arr _, s => s
  | .obj o, .obj s => .obj (mergeFields o s)
  | _o, s => s
termination_by _o s => sizeOf s
/-- Object part of the customized merge: each source field is merged into
the destination field list in order. -/
def mergeFields (o : List (String × JsVal)) : List (String × JsVal) → List (String × JsVal)
  | [] => o
  | (k, sv) :: rest => mergeFields (setField o k (mergeVal (getField o k) sv)) rest
termination_by s => sizeOf s
end

/-! ### Filter normalizer: CreateRegexp, ResolveArray, FilterParse -/

/-- JS `str.charAt(i)` as a (possibly empty) one-character string; an index
outside the string yields `""`.  The source's `str.charAt(str.length - 1)`
on the empty string asks for index `-1`, which also yields `""`, so the
truncating `Nat` index used at that call site agrees with JS. -/
def jsCharAt (s : String) (i : Nat) : String :=
  ((s.toList.drop i).take 1).asString

/-- JS `str.substr(start, length)`: `length` is signed and a non-positive
`length` yields the empty string, which `Int.toNat` reproduces. -/
def jsSubstr (s : String) (start : Nat) (len : Int) : String :=
  ((s.toList.drop start).take len.toNat).asString

/-- Whitespace in the sense of the `\s` class of JS regexes, which the
escape pattern of `CreateRegexp` includes. -/
def isJsWhitespace (c : Char) : Bool :=
  c == ' ' || c == '\t' || c == '\n' || c == Char.ofNat 11 || c == Char.ofNat 12 ||
  c == '\r' || c == Char.ofNat 160 || c == Char.ofNat 0x1680 ||
  (0x2000 ≤ c.toNat && c.toNat ≤ 0x200A) || c == Char.ofNat 0x2028 ||
  c == Char.ofNat 0x2029 || c == Char.ofNat 0x202F || c == Char.ofNat 0x205F ||
  c == Char.ofNat 0x3000 || c == Char.ofNat 0xFEFF

/-- Characters matched by the escape pattern
`/[-[\]{}()*+?.,\\^$|#\s]/g` of `CreateRegexp` (the two brace characters
are written by code point). -/
def isRegexSpecialChar (c : Char) : Bool :=
  (['-', '[', ']', '(', ')', '*', '+', '?', '.', ',', '\\', '^', '$', '|', '#'].contains c) ||
  c == Char.ofNat 123 || c == Char.ofNat 125 || isJsWhitespace c

/-- Replacement `"\\$&"` applied to every matched character: each special
character is prefixed with a backslash. -/
def escapeRegexChar (c : Char) : List Char :=
  if isRegexSpecialChar c then ['\\', c] else [c]

/-- The `.replace(/[-[\]{}()*+?.,\\^$|#\s]/g, "\\$&")` call of
`CreateRegexp`, escaping every regex metacharacter of the delimited text. -/
def escapeRegexSource (s : String) : String :=
  (s.toList.foldr (fun c acc => escapeRegexChar c ++ acc) []).asString

/-- Embedding of `CreateRegexp` (crud.controller.js lines 263-271): when
the first and the last character of `str` are both `/`, the text between
them (`str.substr(1, str.length - 2)`) is metacharacter-escaped and
compiled as a case-insensitive RegExp; otherwise `str` is returned
unchanged.  Note the source checks `charAt`, so the one-character string
`"/"` (whose first and last character coincide) also compiles. -/
def CreateRegexp (str : String) : JsVal :=
  if jsCharAt str 0 = "/" && jsCharAt str (str.length - 1) = "/" then
    JsVal.regex (escapeRegexSource (jsSubstr str 1 ((str.length : Int) - 2))) true
  else JsVal.str str

mutual
/-- Embedding of `FilterParse` (crud.controller.js lines 296-308): for
each key of the filter object the value is dispatched through the source's
`IsString` / `IsArray` / `IsObject` tests.  `IsString(v)` is
`v && v.constructor.name === 'String'`, so the empty string is falsy and
passes through untouched; numbers, booleans, `null` and already-compiled
RegExp objects (constructor name `RegExp`) match none of the three tests
and are untouched. -/
def FilterParse : List (String × JsVal) → List (String × JsVal)
  | [] => []
  | (key, JsVal.str s) :: rest =>
      (key, if s != "" then CreateRegexp s else JsVal.str s) :: FilterParse rest
  | (key, JsVal.arr elems) :: rest =>
      (key, JsVal.arr (ResolveArray elems)) :: FilterParse rest
  | (key, JsVal.obj fields) :: rest =>
      (key, JsVal.obj (FilterParse fields)) :: FilterParse rest
  | (key, v) :: rest => (key, v) :: FilterParse rest
/-- Embedding of `ResolveArray` (crud.controller.js lines 278-290): the
same three-way dispatch applied to every array element. -/
def ResolveArray : List JsVal → List JsVal
  | [] => []
  | JsVal.obj fields :: rest => JsVal.obj (FilterParse fields) :: ResolveArray rest
  | JsVal.arr elems :: rest => JsVal.arr (ResolveArray elems) :: ResolveArray rest
  | JsVal.str s :: rest =>
      (if s != "" then CreateRegexp s else JsVal.str s) :: ResolveArray rest
  | v :: rest => v :: ResolveArray rest
end

/-! ### Aggregation-pipeline validation -/

/-- The fixed denylist of aggregation stage keys
(crud.controller.js lines 158-169). -/
def invalidAggregationKeys : List String :=
  ["$graphLookup", "$lookup", "$merge", "$out", "$currentOp", "$collStats",
   "$indexStats", "$planCacheStats", "$listLocalSessions", "$listSessions"]

mutual
/-- Embedding of `validateAggregation` (crud.controller.js lines 171-184):
falsy bodies pass, arrays are checked elementwise, plain objects are
checked key by key (a denylisted key throws `<key> is restricted.`, other
keys recurse into their values), and every other value passes.  A thrown
error is an `Except.error`. -/
def validateAggregation (body : JsVal) : Except String Bool :=
  if !(truthy body) then .ok true
  else
    match body with
    | .arr elems => validateAggregationEvery elems
    | .obj fields => validateAggregationKeys fields
    | _ => .ok true
/-- The `body.every(_b => validateAggregation(_b))` loop: `every`
short-circuits on a `false` result and a thrown error propagates. -/
def validateAggregationEvery : List JsVal → Except String Bool
  | [] => .ok true
  | b :: rest => do
      let flag ← validateAggregation b
      if flag then validateAggregationEvery rest else pure false
/-- The `Object.keys(body).every(_k => ...)` loop: a key on the denylist
(`invalidAggregationKeys.indexOf(_k) === -1` failing) throws
`_k + ' is restricted.'`; otherwise the key's value is validated
recursively and `every` moves on. -/
def validateAggregationKeys : List (String × JsVal) → Except String Bool
  | [] => .ok true
  | (k, v) :: rest =>
      let flag := !(invalidAggregationKeys.contains k)
      if !flag then .error (k ++ " is restricted.")
      else do
        let inner ← validateAggregation v
        if inner then validateAggregationKeys rest else pure false
end

mutual
/-- Specification-side predicate, written from the claim's words: the body
contains, at some nesting depth inside objects or arrays, an object key
drawn from `invalidAggregationKeys`. -/
def hasRestrictedKey : JsVal → Bool
  | .arr elems => hasRestrictedKeyList elems
  | .obj fields => hasRestrictedKeyFields fields
  | _ => false
/-- Array part of `hasRestrictedKey`. -/
def hasRestrictedKeyList : List JsVal → Bool
  | [] => false
  | x :: rest => hasRestrictedKey x || hasRestrictedKeyList rest
/-- Object part of `hasRestrictedKey`: a denylisted key at this level, or
one nested inside some value. -/
def hasRestrictedKeyFields : List (String × JsVal) → Bool
  | [] => false
  | (k, v) :: rest =>
      invalidAggregationKeys.contains k || hasRestrictedKey v ||
      hasRestrictedKeyFields rest
end

/-- HTTP responses the controller emits: `Okay` sends 200 with a JSON
body, `NotFound` sends 404 with an empty body
(`res.status(404).send()`), and `Error` sends 400 with
`message: [...]`. -/
inductive Response where
  | ok (body : JsVal)
  | notFound
  | badRequest (messages : List String)

/-- HTTP status code of each `Response`. -/
def Response.statusCode : Response → Nat
  | .ok _ => 200
  | .notFound => 404
  | .badRequest _ => 400

/-- Outcome of `_aggregate` (crud.controller.js lines 543-584): whether
`this.model.aggregate(aggBody)` was reached, and the response sent. -/
structure AggregateOutcome where
  storeCalled : Bool
  response : Response

/-- Embedding of `_aggregate`: the body is validated first; a thrown
denylist error rejects the promise before `this.model.aggregate` is
called and is surfaced through `self.Error` as a 400 with the thrown
message; otherwise the pipeline runs against the store (whose result list
is a parameter here) and is sent through `self.Okay`. -/
def aggregateOp (body : JsVal) (storeResult : List JsVal) : AggregateOutcome :=
  match validateAggregation body with
  | .error msg => { storeCalled := false, response := .badRequest [msg] }
  | .ok false =>
      { storeCalled := false,
        response := .badRequest ["Invalid key in aggregation body"] }
  | .ok true => { storeCalled := true, response := .ok (.arr storeResult) }

/-! ### Documents, metadata and the injected pre-save hook -/

/-- The `_metadata` block injected by `injectDefaults` (src/index.js lines
61-101).  `versionDocument` embeds the nested `_metadata.version.document`
counter; `none` stands for a document whose metadata lacks the `version`
object (the hook guards `this._metadata && this._metadata.version`). -/
structure Metadata where
  lastUpdated : Nat
  createdAt : Nat
  deleted : Bool
  versionDocument : Option Nat
deriving DecidableEq

/-- A stored document: its `_id`, its domain fields (a plain-object field
list) and its `_metadata` block (`none` for a document predating the
metadata injection). -/
structure StoredDoc where
  id : String
  data : List (String × JsVal)
  meta : Option Metadata

/-- The schema defaults injected by `injectDefaults`: `lastUpdated` and
`createdAt` default to the current time, `deleted` to `false` and
`_metadata.version.document` to `0`. -/
def injectDefaultsMetadata (now : Nat) : Metadata :=
  { lastUpdated := now, createdAt := now, deleted := false,
    versionDocument := some 0 }

/-- Embedding of the `schema.pre('save', ...)` hook installed by
`injectDefaults`: when the metadata block and its `version` object exist,
`_metadata.version.document` is incremented; when the metadata block
exists, `_metadata.lastUpdated` is set to the current time. -/
def preSave (doc : StoredDoc) (now : Nat) : StoredDoc :=
  match doc.meta with
  | none => doc
  | some m =>
      let m1 :=
        match m.versionDocument with
        | some v => { m with versionDocument := some (v + 1) }
        | none => m
      { doc with meta := some { m1 with lastUpdated := now } }

/-- A document matched by the query clause `'_metadata.deleted': false`:
the metadata block exists and carries `deleted = false` (a missing field
does not match an equality query against `false`). -/
def isLive (d : StoredDoc) : Bool :=
  match d.meta with
  | some m => !m.deleted
  | none => false

/-- `this.model.findOne({_id: rid})` — the query `_destroy` issues, with
no soft-delete clause. -/
def findOneById (store : List StoredDoc) (rid : String) : Option StoredDoc :=
  store.find? (fun d => d.id == rid)

/-- `this.model.findOne({_id: rid, '_metadata.deleted': false})` — the
query used by `_show`, `_update`, `_markAsDeleted` and `_rucc`. -/
def findOneLive (store : List StoredDoc) (rid : String) : Option StoredDoc :=
  store.find? (fun d => d.id == rid && isLive d)

/-- `doc.remove()`: the matched document leaves the collection.  The
store's own operations are assumed correct, so removal of a found
document succeeds. -/
def removeById (store : List StoredDoc) (rid : String) : List StoredDoc :=
  store.eraseP (fun d => d.id == rid)

/-- Persisting a saved document: the stored copy with this `_id` is
replaced by the saved one. -/
def replaceById (store : List StoredDoc) (rid : String) (newDoc : StoredDoc) :
    List StoredDoc :=
  store.map (fun d => if d.id == rid then newDoc else d)

/-! ### getResponseObject -/

/-- JS property read `v[k]`: on a plain object the field's value or
`undefined`; reading a named property off the other values of this
development yields `undefined`. -/
def jsGetProp (v : JsVal) (k : String) : JsVal :=
  match v with
  | .obj fields => getField fields k
  | _ => .undefined

/-- JS `a && b`. -/
def jsAnd (a b : JsVal) : JsVal := if truthy a then b else a

/-- JS `a || b`. -/
def jsOr (a b : JsVal) : JsVal := if truthy a then a else b

/-- Embedding of `getResponseObject` (crud.controller.js lines 977-979):
`this.defaultReturn && obj[this.defaultReturn] || obj`, with the
controller's `defaultReturn` string passed explicitly (its prototype
default is the empty string). -/
def getResponseObject (defaultReturn : String) (obj : JsVal) : JsVal :=
  jsOr (jsAnd (JsVal.str defaultReturn) (jsGetProp obj defaultReturn)) obj

/-! ### update, destroy, markAsDeleted, bulk destroy -/

/-- The `if (body._id) { delete req.body._id; }` prologue of `_update`:
a truthy `_id` in the payload is deleted before the merge (`body` and
`req.body` alias the same object). -/
def deletePayloadId (body : List (String × JsVal)) : List (String × JsVal) :=
  if truthy (getField body "_id") then body.filter (fun kv => kv.1 != "_id")
  else body

/-- What `_update` produced: the response, the successor store, and
whether the structured `Update` audit record was handed to
`self.logger.trace`. -/
structure UpdateOutcome where
  response : Response
  store : List StoredDoc
  auditLogEmitted : Bool

/-- Embedding of `_update` (crud.controller.js lines 789-838) over the
domain fields of the target document (the wire payload carries domain
fields; `_metadata` is maintained by the injected hooks and `_id` is
deleted by the prologue, so the lodash merge and the
`_.isEqual(JSON.parse(JSON.stringify(updated)), JSON.parse(JSON.stringify(oldValues)))`
comparison reduce to the domain fields).  When no live document matches,
404 is sent and the second `.then` is skipped via `resSentFlag`.  When the
merged result round-trips equal to the old document the first `.then`
returns without saving — but the second `.then` still runs: it emits the
`Update` audit record and answers 200 with the (unchanged) merged
document.  Otherwise the merged document is saved (running the pre-save
hook), the audit record is emitted and the saved document is sent. -/
def update (store : List StoredDoc) (rid : String)
    (body : List (String × JsVal)) (defaultReturn : String) (now : Nat) :
    UpdateOutcome :=
  let bodyData := deletePayloadId body
  match findOneLive store rid with
  | none => { response := .notFound, store := store, auditLogEmitted := false }
  | some document =>
      let oldValues := document.data
      let updated := mergeFields document.data bodyData
      if jsEqVal (jsonRoundTrip (.obj updated)) (jsonRoundTrip (.obj oldValues)) then
        { response := .ok (getResponseObject defaultReturn (.obj updated)),
          store := store,
          auditLogEmitted := true }
      else
        let newDoc := preSave { document with data := updated } now
        { response := .ok (getResponseObject defaultReturn (.obj newDoc.data)),
          store := replaceById store rid newDoc,
          auditLogEmitted := true }

/-- Embedding of `_destroy` (crud.controller.js lines 856-884).  The
lookup is by `_id` alone (no soft-delete clause).  When no document is
found the first `.then` returns early without removing anything, but the
second `.then` still logs and answers `self.Okay(res, {})`; the handler
never sends 404. -/
def destroy (store : List StoredDoc) (rid : String) :
    Response × List StoredDoc :=
  match findOneById store rid with
  | none => (Response.ok (JsVal.obj []), store)
  | some _ => (Response.ok (JsVal.obj []), removeById store rid)

/-- Representative engine message for reading the property `._id` of
`null` (the exact wording is JS-engine specific; only the fact that a
TypeError is thrown matters below). -/
def nullDereferenceMessage : String := "TypeError: Cannot read properties of null"

/-- `doc._metadata.deleted = true` on a matched live document (whose
metadata block exists, since the query matched `'_metadata.deleted':
false`). -/
def setDeleted (d : StoredDoc) : StoredDoc :=
  match d.meta with
  | some m => { d with meta := some { m with deleted := true } }
  | none => d

/-- Embedding of `_markAsDeleted` (crud.controller.js lines 889-919).
When no live document is found the first `.then` returns early with
`document` still `null`; the second `.then` then dereferences
`document._id`, the thrown TypeError lands in `.catch`, and `self.Error`
answers 400 — not 404.  A found document has its soft-delete flag set and
is saved (running the pre-save hook), and the handler answers
`self.Okay(res, {})`. -/
def markAsDeleted (store : List StoredDoc) (rid : String) (now : Nat) :
    Response × List StoredDoc :=
  match findOneLive store rid with
  | none => (Response.badRequest [nullDereferenceMessage], store)
  | some doc =>
      (Response.ok (JsVal.obj []),
       replaceById store rid (preSave (setDeleted doc) now))

/-- lodash `_.uniq`: duplicates dropped, first occurrences kept in
order. -/
def jsUniq : List String → List String
  | [] => []
  | x :: rest => x :: (jsUniq rest).filter (fun y => y != x)

/-- lodash `_.difference(a, b)`: the elements of `a` not present in
`b`. -/
def jsDifference (a b : List String) : List String :=
  a.filter (fun x => !(b.contains x))

/-- Embedding of `bulkRemove` with type `"destroy"` — the body of
`_bulkDestroy` (crud.controller.js lines 120-156).  All live documents
whose `_id` is in the requested list are found and removed (removal of a
found document succeeds in the assumed-correct store, so no
`removeDocument` promise resolves `null`).  The requested ids are
de-duplicated and diffed against the removed ids: an empty difference
answers `self.Okay(res, {})`, otherwise the thrown
`Could not delete document with id <ids>` error (the id array joins with
commas when concatenated to the string) is caught and sent as a 400.
Either way the removals already performed stand. -/
def bulkRemoveDestroy (store : List StoredDoc) (ids : List String) :
    Response × List StoredDoc :=
  let matched := store.filter (fun d => ids.contains d.id && isLive d)
  let removedIds := matched.map (fun d => d.id)
  let newStore := store.filter (fun d => !(ids.contains d.id && isLive d))
  let docsNotRemoved := jsDifference (jsUniq ids) removedIds
  if docsNotRemoved.isEmpty then (Response.ok (JsVal.obj []), newStore)
  else
    (Response.badRequest
      ["Could not delete document with id " ++ String.intercalate "," docsNotRemoved],
     newStore)

/-! ### The RUCC engine -/

/-- Result of a JS computation: a resolved value or a thrown error. -/
inductive JsOutcome (α : Type) where
  | value (a : α)
  | thrown (message : String)

/-- The identifiers visible inside the body of `_rucc`
(crud.controller.js lines 924-975): its parameters, its one local `var`,
the module-level bindings of crud.controller.js, and the ambient
globals the module touches.  The file is in strict mode, so evaluating an
identifier outside this scope throws a ReferenceError.  Note that `req`
is not among them — `_rucc` has no `req` parameter. -/
def ruccScopeIdentifiers : List String :=
  ["queryObject", "callBack", "self",
   "_", "BaseController", "params", "mongoose", "transactionOptions",
   "debugLogReq", "handleSession", "getMongoDbVersion",
   "isTransactionSupported", "saveDocument", "createDocument",
   "removeDocument", "bulkRemove", "invalidAggregationKeys",
   "validateAggregation", "CrudController",
   "require", "module", "exports", "Promise", "JSON", "Object", "Array",
   "Date", "Error", "RegExp", "parseFloat"]

/-- The property names of the `CrudController.prototype` object literal
(crud.controller.js lines 186-980). -/
def crudPrototypePropertyNames : List String :=
  ["constructor", "model", "idName", "lean", "select", "omit",
   "defaultReturn", "debugLogger", "Okay", "NotFound", "IsString",
   "CreateRegexp", "IsArray", "IsObject", "ResolveArray", "FilterParse",
   "Error", "_count", "_index", "_show", "_aggregate", "_create",
   "_bulkShow", "_updateMapper", "_bulkUpdate", "_bulkUpload",
   "_bulkPersist", "_update", "_customizer", "_destroy", "_bulkDestroy",
   "_markAsDeleted", "_bulkMarkAsDeleted", "_rucc", "getResponseObject"]

/-- Modelled from the spec: `base.controller.js` is not under src/.  Per
the spec, the prototype-chain base controller contributes shared
response-emission helpers only, so it defines nothing named `__rucc` or
`___rucc`; the helper names here follow the response-emitter interface
the spec describes. -/
def baseControllerPropertyNames : List String := ["Okay", "NotFound", "Error"]

/-- Snapshot matching for `findOneAndUpdate(snapshot, ...)`: the stored
document equals the snapshot (taken with
`toObject({getters:false, virtuals:false, depopulate:true})`) in `_id`,
domain fields and metadata. -/
def docEqB (a b : StoredDoc) : Bool :=
  a.id == b.id && jsEqFields a.data b.data && a.meta == b.meta

/-- `findOneAndUpdate(snapshot, newValue, {upsert:false, runValidators:
true})`: with no match nothing changes and `null` is returned; with a
match the document is overwritten with the transformed value and — since
the source does not pass `new: true` — the pre-update document is
returned. -/
def findOneAndUpdateBySnapshot (store : List StoredDoc)
    (snapshot newValue : StoredDoc) : Option StoredDoc × List StoredDoc :=
  match store.find? (fun d => docEqB d snapshot) with
  | none => (none, store)
  | some d => (some d, store.map (fun x => if docEqB x snapshot then newValue else x))

/-- A call `self.<name>(queryObject, callBack)` at the retry sites of
`_rucc`.  When `name` is a property of the controller (prototype chain
included) the call runs; its result is discarded by the source (the
statement has no `return`), so this continuation resolves with
`undefined` either way.  When `name` is not a property, the member access
yields `undefined` and invoking it throws a TypeError. -/
def invokeSelfMethod (name : String) : JsOutcome (Option StoredDoc) :=
  if name ∈ crudPrototypePropertyNames ∨ name ∈ baseControllerPropertyNames then
    JsOutcome.value none
  else JsOutcome.thrown ("TypeError: self." ++ name ++ " is not a function")

/-- The body of `_rucc` from its `findOne` onward (crud.controller.js
lines 928-974), for a synchronous transform (`newResult` has no `.then`,
the branch at line 955).  `store` is the collection at read time;
`storeAtWrite` is the collection when the conditional write reaches the
database, so a concurrent writer is represented by `storeAtWrite`
differing from `store` at the snapshot.  No live document: resolve
`null`.  Snapshot still current: resolve the conditional write's result.
Snapshot gone stale (`updated` falsy): the source retries via
`self.___rucc(queryObject, callBack)`. -/
def ruccAfterDebugLog (store storeAtWrite : List StoredDoc) (queryId : String)
    (callBack : StoredDoc → StoredDoc) : JsOutcome (Option StoredDoc) :=
  match findOneLive store queryId with
  | none => JsOutcome.value none
  | some result =>
      let snapshot := result
      let newResult := callBack result
      match (findOneAndUpdateBySnapshot storeAtWrite snapshot newResult).1 with
      | some updated => JsOutcome.value (some updated)
      | none => invokeSelfMethod "___rucc"

/-- Embedding of `_rucc` (crud.controller.js lines 924-975).  The first
statement of the body is `debugLogReq(req, this.logger)`; the identifier
`req` is resolved against the scope of `_rucc` and, the file being in
strict mode, throws a ReferenceError when unbound.  Only if that
resolution succeeded would the read-transform-write body run. -/
def rucc (store storeAtWrite : List StoredDoc) (queryId : String)
    (callBack : StoredDoc → StoredDoc) : JsOutcome (Option StoredDoc) :=
  if "req" ∈ ruccScopeIdentifiers then
    ruccAfterDebugLog store storeAtWrite queryId callBack
  else JsOutcome.thrown "ReferenceError: req is not defined"

/-! ### Theorems -/

/-- C10: `getResponseObject(obj)` returns `obj` itself whenever the
controller's `defaultReturn` is the empty string (the default
configuration); and even when `defaultReturn` names a property, a falsy
`obj[defaultReturn]` makes the whole `obj` be returned instead of the
selected property value. -/
theorem getResponseObject_whole_object :
    (∀ obj : JsVal, getResponseObject "" obj = obj) ∧
    (∀ (dr : String) (obj : JsVal), truthy (jsGetProp obj dr) = false →
      getResponseObject dr obj = obj) := by
  constructor
  · intro obj
    simp [getResponseObject, jsAnd, jsOr, truthy]
  · intro dr obj h
    by_cases hdr : dr = ""
    · subst hdr; simp [getResponseObject, jsAnd, jsOr, truthy]
    · have hdr2 : truthy (JsVal.str dr) = true := by simp [truthy, hdr]
      simp [getResponseObject, jsAnd, jsOr, hdr2, h]

/-- Witness for C10 at concrete inputs: the empty `defaultReturn`, and a
named `defaultReturn` whose selected property is the falsy `""`. -/
theorem getResponseObject_whole_object_witness :
    getResponseObject "" (JsVal.obj [("a", JsVal.num 1)]) = JsVal.obj [("a", JsVal.num 1)] ∧
    (truthy (jsGetProp (JsVal.obj [("name", JsVal.str "")]) "name") = false ∧
     getResponseObject "name" (JsVal.obj [("name", JsVal.str "")]) =
       JsVal.obj [("name", JsVal.str "")]) :=
  ⟨getResponseObject_whole_object.1 _,
   rfl,
   getResponseObject_whole_object.2 "name" _ rfl⟩

/-- C5: the injected pre-save hook of a committed mutating save increments
`_metadata.version.document` by exactly one — never less, never more, so
the counter never decreases — and refreshes `_metadata.lastUpdated` to the
save time, leaving `createdAt`, the soft-delete flag, the `_id` and the
domain fields untouched. -/
theorem preSave_bumps_version_once (d : StoredDoc) (m : Metadata) (v : Nat)
    (now : Nat) (hm : d.meta = some m) (hv : m.versionDocument = some v) :
    (preSave d now).meta = some { lastUpdated := now, createdAt := m.createdAt,
                                  deleted := m.deleted,
                                  versionDocument := some (v + 1) } ∧
    (preSave d now).id = d.id ∧ (preSave d now).data = d.data := by
  simp [preSave, hm, hv]

/-- Witness for C5: a freshly injected document (version 0) saved at time
3 carries version 1 and `lastUpdated = 3`. -/
theorem preSave_bumps_version_once_witness :
    (preSave ⟨"d1", [("a", JsVal.num 1)], some (injectDefaultsMetadata 0)⟩ 3).meta =
      some { lastUpdated := 3, createdAt := 0, deleted := false,
             versionDocument := some 1 } ∧
    (preSave ⟨"d1", [("a", JsVal.num 1)], some (injectDefaultsMetadata 0)⟩ 3).id = "d1" ∧
    (preSave ⟨"d1", [("a", JsVal.num 1)], some (injectDefaultsMetadata 0)⟩ 3).data =
      [("a", JsVal.num 1)] :=
  preSave_bumps_version_once _ (injectDefaultsMetadata 0) 0 3 rfl rfl

/-- C8 (code bug): when the requested id does not resolve to a live
document, neither handler sends the documented 404 with empty body:
`_destroy` answers 200 with `{}` without removing anything (its own doc
comment promises NOT FOUND), and `_markAsDeleted` dereferences `._id` of
`null`, so its `.catch` answers 400 with the TypeError message. -/
theorem destroy_markAsDeleted_missing_doc_is_not_404
    (store : List StoredDoc) (rid : String) (now : Nat)
    (h : findOneLive store rid = none) (hid : findOneById store rid = none) :
    (markAsDeleted store rid now).1 = Response.badRequest [nullDereferenceMessage] ∧
    (markAsDeleted store rid now).1.statusCode = 400 ∧
    (markAsDeleted store rid now).2 = store ∧
    (destroy store rid).1 = Response.ok (JsVal.obj []) ∧
    (destroy store rid).1.statusCode = 200 ∧
    (markAsDeleted store rid now).1 ≠ Response.notFound ∧
    (destroy store rid).1 ≠ Response.notFound := by
  refine ⟨?_, ?_, ?_, ?_, ?_, ?_, ?_⟩ <;>
    simp [markAsDeleted, destroy, h, hid, Response.statusCode]

/-- Witness for C8: an id absent from the (empty) collection. -/
theorem destroy_markAsDeleted_missing_doc_is_not_404_witness :
    (markAsDeleted [] "missing" 3).1 = Response.badRequest [nullDereferenceMessage] ∧
    (markAsDeleted [] "missing" 3).1.statusCode = 400 ∧
    (markAsDeleted [] "missing" 3).2 = [] ∧
    (destroy [] "missing").1 = Response.ok (JsVal.obj []) ∧
    (destroy [] "missing").1.statusCode = 200 ∧
    (markAsDeleted [] "missing" 3).1 ≠ Response.notFound ∧
    (destroy [] "missing").1 ≠ Response.notFound :=
  destroy_markAsDeleted_missing_doc_is_not_404 [] "missing" 3 rfl rfl

/-- C2 (code bug): when no live document carries the requested id, `_rucc`
does not return `null` as a no-op — it throws before even issuing the
read, because its first statement `debugLogReq(req, this.logger)`
evaluates the unbound identifier `req` in strict mode.  The remainder of
the body (from the `findOne` onward) would indeed resolve `null`, which
locates the slip in the copied debug-log line. -/
theorem rucc_missing_doc_throws_instead_of_null
    (store storeAtWrite : List StoredDoc) (queryId : String)
    (callBack : StoredDoc → StoredDoc) (h : findOneLive store queryId = none) :
    "req" ∉ ruccScopeIdentifiers ∧
    rucc store storeAtWrite queryId callBack =
      JsOutcome.thrown "ReferenceError: req is not defined" ∧
    ruccAfterDebugLog store storeAtWrite queryId callBack = JsOutcome.value none := by
  refine ⟨by decide, ?_, ?_⟩
  · simp [rucc, ruccScopeIdentifiers]
  · simp [ruccAfterDebugLog, h]

/-- Witness for C2: any id over the empty collection. -/
theorem rucc_missing_doc_throws_instead_of_null_witness :
    "req" ∉ ruccScopeIdentifiers ∧
    rucc [] [] "missing" id = JsOutcome.thrown "ReferenceError: req is not defined" ∧
    ruccAfterDebugLog [] [] "missing" id = JsOutcome.value none :=
  rucc_missing_doc_throws_instead_of_null [] [] "missing" id rfl

/-- C1 (code bug): when another writer invalidates the snapshot between
read and conditional write, `_rucc` does not re-read and re-attempt.  The
whole call already throws a ReferenceError at its first statement; and
even the body from the read onward, upon the conditional update reporting
no match, invokes `self.___rucc` (the sibling branch `self.__rucc`) —
neither name is a property of the controller or of the base controller,
so the retry line throws a TypeError instead of recursing. -/
theorem rucc_race_throws_instead_of_retry
    (store storeAtWrite : List StoredDoc) (queryId : String)
    (callBack : StoredDoc → StoredDoc) (d : StoredDoc)
    (hread : findOneLive store queryId = some d)
    (hrace : storeAtWrite.find? (fun x => docEqB x d) = none) :
    "__rucc" ∉ crudPrototypePropertyNames ∧
    "___rucc" ∉ crudPrototypePropertyNames ∧
    "__rucc" ∉ baseControllerPropertyNames ∧
    "___rucc" ∉ baseControllerPropertyNames ∧
    rucc store storeAtWrite queryId callBack =
      JsOutcome.thrown "ReferenceError: req is not defined" ∧
    ruccAfterDebugLog store storeAtWrite queryId callBack =
      JsOutcome.thrown "TypeError: self.___rucc is not a function" := by
  refine ⟨by decide, by decide, by decide, by decide, ?_, ?_⟩
  · simp [rucc, ruccScopeIdentifiers]
  · simp [ruccAfterDebugLog, hread, findOneAndUpdateBySnapshot, hrace,
          invokeSelfMethod, crudPrototypePropertyNames, baseControllerPropertyNames]

/-- Witness for C1: a live document read at id `d1`, with a concurrent
writer having changed its field `a` before the conditional write. -/
theorem rucc_race_throws_instead_of_retry_witness :
    "__rucc" ∉ crudPrototypePropertyNames ∧
    "___rucc" ∉ crudPrototypePropertyNames ∧
    "__rucc" ∉ baseControllerPropertyNames ∧
    "___rucc" ∉ baseControllerPropertyNames ∧
    rucc [⟨"d1", [("a", JsVal.num 1)], some (injectDefaultsMetadata 0)⟩]
         [⟨"d1", [("a", JsVal.num 2)], some (injectDefaultsMetadata 0)⟩] "d1" id =
      JsOutcome.thrown "ReferenceError: req is not defined" ∧
    ruccAfterDebugLog [⟨"d1", [("a", JsVal.num 1)], some (injectDefaultsMetadata 0)⟩]
         [⟨"d1", [("a", JsVal.num 2)], some (injectDefaultsMetadata 0)⟩] "d1" id =
      JsOutcome.thrown "TypeError: self.___rucc is not a function" :=
  rucc_race_throws_instead_of_retry _ _ "d1" id
    ⟨"d1", [("a", JsVal.num 1)], some (injectDefaultsMetadata 0)⟩ rfl rfl

/-! ### C3: which strings compile to patterns -/

/-- Dropping all elements of a list but the last one leaves exactly the
optional last element. -/
theorem list_drop_length_sub_one {α : Type} :
    ∀ l : List α, l.drop (l.length - 1) = l.getLast?.toList
  | [] => rfl
  | [_] => rfl
  | _ :: y :: t => by
      have ih := list_drop_length_sub_one (y :: t)
      simpa [List.getLast?_cons_cons] using ih

/-- The `str.charAt(0) === '/'` test of `CreateRegexp` holds exactly when
the first character is `/`. -/
theorem jsCharAt_zero_eq_slash (s : String) :
    (jsCharAt s 0 = "/") ↔ s.toList.head? = some '/' := by
  unfold jsCharAt
  cases h : s.toList with
  | nil => simp [List.asString, String.ext_iff]
  | cons c t => simp [List.asString, String.ext_iff]

/-- The `str.charAt(str.length - 1) === '/'` test of `CreateRegexp` holds
exactly when the last character is `/`. -/
theorem jsCharAt_last_eq_slash (s : String) :
    (jsCharAt s (s.length - 1) = "/") ↔ s.toList.getLast? = some '/' := by
  unfold jsCharAt
  have hlen : s.length = s.toList.length := rfl
  rw [hlen, list_drop_length_sub_one]
  cases h : s.toList.getLast? with
  | none => simp [List.asString, String.ext_iff, Option.toList]
  | some c => simp [List.asString, String.ext_iff, Option.toList]

/-- A string is either compiled to a case-insensitive pattern or returned
unchanged by `CreateRegexp`. -/
theorem createRegexp_cases (s : String) :
    CreateRegexp s =
        JsVal.regex (escapeRegexSource (jsSubstr s 1 ((s.length : Int) - 2))) true ∨
    CreateRegexp s = JsVal.str s := by
  unfold CreateRegexp
  split
  · exact Or.inl rfl
  · exact Or.inr rfl

/-- C3 (counterexample): the degenerate all-slash strings `"/"` and
`"//"` are not treated as literals — `CreateRegexp` (and hence
normalization) compiles them, silently producing the empty
match-everything case-insensitive pattern. -/
theorem createRegexp_degenerate_not_literal :
    CreateRegexp "/" = JsVal.regex "" true ∧
    CreateRegexp "//" = JsVal.regex "" true ∧
    CreateRegexp "/" ≠ JsVal.str "/" ∧
    FilterParse [("name", JsVal.str "/")] = [("name", JsVal.regex "" true)] := by
  refine ⟨rfl, rfl, fun h => JsVal.noConfusion h, ?_⟩
  have h1 : CreateRegexp "/" = JsVal.regex "" true := rfl
  simp [FilterParse, h1]

/-- C3 (amended): a string value compiles to a case-insensitive pattern
(delimiters stripped, regex metacharacters escaped) exactly when it is
nonempty and both its first and its last character are `/` — including
the degenerate `"/"` and `"//"`, which compile to the empty
match-everything pattern rather than passing through; every string whose
first or last character is not `/` (the empty string among them) passes
through as a literal. -/
theorem createRegexp_compiles_iff_slash_delimited (s : String) :
    ((∃ p, CreateRegexp s = JsVal.regex p true) ↔
      (s.toList.head? = some '/' ∧ s.toList.getLast? = some '/')) ∧
    (¬(s.toList.head? = some '/' ∧ s.toList.getLast? = some '/') →
      CreateRegexp s = JsVal.str s) ∧
    ((s.toList.head? = some '/' ∧ s.toList.getLast? = some '/') →
      CreateRegexp s =
        JsVal.regex (escapeRegexSource (jsSubstr s 1 ((s.length : Int) - 2))) true) := by
  have hb : ((jsCharAt s 0 = "/" && jsCharAt s (s.length - 1) = "/") = true) ↔
      (s.toList.head? = some '/' ∧ s.toList.getLast? = some '/') := by
    simp only [Bool.and_eq_true, decide_eq_true_eq]
    exact and_congr (jsCharAt_zero_eq_slash s) (jsCharAt_last_eq_slash s)
  by_cases hc : s.toList.head? = some '/' ∧ s.toList.getLast? = some '/'
  · have he : CreateRegexp s =
        JsVal.regex (escapeRegexSource (jsSubstr s 1 ((s.length : Int) - 2))) true := by
      unfold CreateRegexp
      rw [if_pos (hb.mpr hc)]
    exact ⟨⟨fun _ => hc, fun _ => ⟨_, he⟩⟩, fun hn => absurd hc hn, fun _ => he⟩
  · have he : CreateRegexp s = JsVal.str s := by
      unfold CreateRegexp
      rw [if_neg (fun hbt => hc (hb.mp hbt))]
    refine ⟨⟨fun hex => ?_, fun hcc => absurd hcc hc⟩, fun _ => he, fun hcc => absurd hcc hc⟩
    obtain ⟨p, hp⟩ := hex
    exact JsVal.noConfusion (he.symm.trans hp)

/-- Witness for C3 (amended) at `"/^foo/"` (compiled, `^` escaped) and
`"foo"` (left as a literal). -/
theorem createRegexp_compiles_iff_slash_delimited_witness :
    CreateRegexp "/^foo/" = JsVal.regex "\\^foo" true ∧
    CreateRegexp "foo" = JsVal.str "foo" :=
  ⟨((createRegexp_compiles_iff_slash_delimited "/^foo/").2.2 (by decide)).trans rfl,
   (createRegexp_compiles_iff_slash_delimited "foo").2.1 (by decide)⟩

/-! ### C9: idempotence of filter normalization -/

mutual
/-- Normalizing an already-normalized filter object changes nothing: every
value a first pass produced is either a compiled pattern (untouched by the
dispatch) or a string/array/object the dispatch maps to itself again. -/
theorem FilterParse_norm_idem : ∀ F : List (String × JsVal),
    FilterParse (FilterParse F) = FilterParse F
  | [] => by simp [FilterParse]
  | (key, JsVal.str s) :: rest => by
      by_cases hs : s = ""
      · subst hs
        simp [FilterParse, FilterParse_norm_idem rest]
      · rcases createRegexp_cases s with h | h
        · simp [FilterParse, hs, h, FilterParse_norm_idem rest]
        · simp [FilterParse, hs, h, FilterParse_norm_idem rest]
  | (key, JsVal.num n) :: rest => by
      simp [FilterParse, FilterParse_norm_idem rest]
  | (key, JsVal.boolean b) :: rest => by
      simp [FilterParse, FilterParse_norm_idem rest]
  | (key, JsVal.null) :: rest => by
      simp [FilterParse, FilterParse_norm_idem rest]
  | (key, JsVal.undefined) :: rest => by
      simp [FilterParse, FilterParse_norm_idem rest]
  | (key, JsVal.regex p i) :: rest => by
      simp [FilterParse, FilterParse_norm_idem rest]
  | (key, JsVal.arr elems) :: rest => by
      simp [FilterParse, ResolveArray_norm_idem elems, FilterParse_norm_idem rest]
  | (key, JsVal.obj fields) :: rest => by
      simp [FilterParse, FilterParse_norm_idem fields, FilterParse_norm_idem rest]
/-- Array counterpart of `FilterParse_norm_idem`. -/
theorem ResolveArray_norm_idem : ∀ l : List JsVal,
    ResolveArray (ResolveArray l) = ResolveArray l
  | [] => by simp [ResolveArray]
  | JsVal.str s :: rest => by
      by_cases hs : s = ""
      · subst hs
        simp [ResolveArray, ResolveArray_norm_idem rest]
      · rcases createRegexp_cases s with h | h
        · simp [ResolveArray, hs, h, ResolveArray_norm_idem rest]
        · simp [ResolveArray, hs, h, ResolveArray_norm_idem rest]
  | JsVal.num n :: rest => by
      simp [ResolveArray, ResolveArray_norm_idem rest]
  | JsVal.boolean b :: rest => by
      simp [ResolveArray, ResolveArray_norm_idem rest]
  | JsVal.null :: rest => by
      simp [ResolveArray, ResolveArray_norm_idem rest]
  | JsVal.undefined :: rest => by
      simp [ResolveArray, ResolveArray_norm_idem rest]
  | JsVal.regex p i :: rest => by
      simp [ResolveArray, ResolveArray_norm_idem rest]
  | JsVal.arr elems :: rest => by
      simp [ResolveArray, ResolveArray_norm_idem elems, ResolveArray_norm_idem rest]
  | JsVal.obj fields :: rest => by
      simp [ResolveArray, FilterParse_norm_idem fields, ResolveArray_norm_idem rest]
end

/-- C9: filter normalization is idempotent — `FilterParse` applied to an
already-parsed filter returns it unchanged, at every nesting depth through
objects and arrays; in particular a value already compiled to a pattern
object is not re-wrapped or re-compiled by a second pass. -/
theorem filterParse_idempotent (F : List (String × JsVal)) :
    FilterParse (FilterParse F) = FilterParse F :=
  FilterParse_norm_idem F

/-! ### C7: the denylist check -/

/-- Bind of a successful `Except` computation. -/
theorem exceptBind_ok {e a b : Type} (x : a) (f : a → Except e b) :
    (Except.ok x >>= f) = f x := rfl

/-- Bind of a failed `Except` computation. -/
theorem exceptBind_error {e a b : Type} (err : e) (f : a → Except e b) :
    ((Except.error err : Except e a) >>= f) = Except.error err := rfl

mutual
/-- `validateAggregation` either passes a body containing no denylisted
key anywhere, or throws `<key> is restricted.` for some denylisted key the
body contains. -/
theorem validateAggregation_spec : ∀ v : JsVal,
    (hasRestrictedKey v = false ∧ validateAggregation v = .ok true) ∨
    (hasRestrictedKey v = true ∧ ∃ k, k ∈ invalidAggregationKeys ∧
      validateAggregation v = .error (k ++ " is restricted."))
  | .str s => Or.inl ⟨by simp [hasRestrictedKey], by simp [validateAggregation]⟩
  | .num n => Or.inl ⟨by simp [hasRestrictedKey], by simp [validateAggregation]⟩
  | .boolean b => Or.inl ⟨by simp [hasRestrictedKey], by simp [validateAggregation]⟩
  | .null => Or.inl ⟨by simp [hasRestrictedKey], by simp [validateAggregation, truthy]⟩
  | .undefined => Or.inl ⟨by simp [hasRestrictedKey], by simp [validateAggregation, truthy]⟩
  | .regex p i => Or.inl ⟨by simp [hasRestrictedKey], by simp [validateAggregation, truthy]⟩
  | .arr elems => by
      rcases validateAggregationEvery_spec elems with ⟨h1, h2⟩ | ⟨h1, h2⟩
      · exact Or.inl ⟨by simp [hasRestrictedKey, h1],
          by simp [validateAggregation, truthy, h2]⟩
      · refine Or.inr ⟨by simp [hasRestrictedKey, h1], ?_⟩
        obtain ⟨k, hk, hke⟩ := h2
        exact ⟨k, hk, by simp [validateAggregation, truthy, hke]⟩
  | .obj fields => by
      rcases validateAggregationKeys_spec fields with ⟨h1, h2⟩ | ⟨h1, h2⟩
      · exact Or.inl ⟨by simp [hasRestrictedKey, h1],
          by simp [validateAggregation, truthy, h2]⟩
      · refine Or.inr ⟨by simp [hasRestrictedKey, h1], ?_⟩
        obtain ⟨k, hk, hke⟩ := h2
        exact ⟨k, hk, by simp [validateAggregation, truthy, hke]⟩
/-- Array counterpart of `validateAggregation_spec`. -/
theorem validateAggregationEvery_spec : ∀ l : List JsVal,
    (hasRestrictedKeyList l = false ∧ validateAggregationEvery l = .ok true) ∨
    (hasRestrictedKeyList l = true ∧ ∃ k, k ∈ invalidAggregationKeys ∧
      validateAggregationEvery l = .error (k ++ " is restricted."))
  | [] => Or.inl ⟨by simp [hasRestrictedKeyList], by simp [validateAggregationEvery]⟩
  | b :: rest => by
      rcases validateAggregation_spec b with ⟨h1, h2⟩ | ⟨h1, h2⟩
      · rcases validateAggregationEvery_spec rest with ⟨g1, g2⟩ | ⟨g1, g2⟩
        · exact Or.inl ⟨by simp [hasRestrictedKeyList, h1, g1],
            by simp [validateAggregationEvery, h2, g2, exceptBind_ok]⟩
        · refine Or.inr ⟨by simp [hasRestrictedKeyList, g1], ?_⟩
          obtain ⟨k, hk, hke⟩ := g2
          exact ⟨k, hk, by simp [validateAggregationEvery, h2, hke, exceptBind_ok]⟩
      · refine Or.inr ⟨by simp [hasRestrictedKeyList, h1], ?_⟩
        obtain ⟨k, hk, hke⟩ := h2
        exact ⟨k, hk, by simp [validateAggregationEvery, hke, exceptBind_error]⟩
/-- Object counterpart of `validateAggregation_spec`. -/
theorem validateAggregationKeys_spec : ∀ l : List (String × JsVal),
    (hasRestrictedKeyFields l = false ∧ validateAggregationKeys l = .ok true) ∨
    (hasRestrictedKeyFields l = true ∧ ∃ k, k ∈ invalidAggregationKeys ∧
      validateAggregationKeys l = .error (k ++ " is restricted."))
  | [] => Or.inl ⟨by simp [hasRestrictedKeyFields], by simp [validateAggregationKeys]⟩
  | (k, v) :: rest => by
      by_cases hk : invalidAggregationKeys.contains k
      · have hmem : k ∈ invalidAggregationKeys := by simpa using hk
        refine Or.inr ⟨by simp [hasRestrictedKeyFields, hmem], ?_⟩
        exact ⟨k, hmem, by simp [validateAggregationKeys, hmem]⟩
      · have hmem : k ∉ invalidAggregationKeys := by simpa using hk
        rcases validateAggregation_spec v with ⟨h1, h2⟩ | ⟨h1, h2⟩
        · rcases validateAggregationKeys_spec rest with ⟨g1, g2⟩ | ⟨g1, g2⟩
          · exact Or.inl ⟨by simp [hasRestrictedKeyFields, hmem, h1, g1],
              by simp [validateAggregationKeys, hmem, h2, g2, exceptBind_ok]⟩
          · refine Or.inr ⟨by simp [hasRestrictedKeyFields, g1], ?_⟩
            obtain ⟨k2, hk2, hke⟩ := g2
            exact ⟨k2, hk2, by simp [validateAggregationKeys, hmem, h2, hke, exceptBind_ok]⟩
        · refine Or.inr ⟨by simp [hasRestrictedKeyFields, h1], ?_⟩
          obtain ⟨k2, hk2, hke⟩ := h2
          exact ⟨k2, hk2, by simp [validateAggregationKeys, hmem, hke, exceptBind_error]⟩
end

/-- C7: an aggregate request whose pipeline body contains, at any nesting
depth inside objects or arrays, a key from the fixed denylist is rejected
before any store call is issued, with message `<key> is restricted.` for
a denylisted key it contains; a body with no denylisted key at any depth
passes validation and is executed against the store. -/
theorem aggregate_denylist_enforced (body : JsVal) (storeResult : List JsVal) :
    (hasRestrictedKey body = true →
      (aggregateOp body storeResult).storeCalled = false ∧
      ∃ k, k ∈ invalidAggregationKeys ∧
        (aggregateOp body storeResult).response =
          Response.badRequest [k ++ " is restricted."]) ∧
    (hasRestrictedKey body = false →
      (aggregateOp body storeResult).storeCalled = true ∧
      (aggregateOp body storeResult).response = Response.ok (JsVal.arr storeResult)) := by
  rcases validateAggregation_spec body with ⟨h1, h2⟩ | ⟨h1, h2⟩
  · refine ⟨fun hh => ?_, fun _ => by simp [aggregateOp, h2]⟩
    rw [h1] at hh
    cases hh
  · refine ⟨fun _ => ?_, fun hh => ?_⟩
    · obtain ⟨k, hk, hke⟩ := h2
      exact ⟨by simp [aggregateOp, hke], k, hk, by simp [aggregateOp, hke]⟩
    · rw [h1] at hh
      cases hh

/-- Witness for C7: a pipeline containing `$lookup` is rejected before the
store is called; one containing only `$match` runs. -/
theorem aggregate_denylist_enforced_witness :
    ((aggregateOp (JsVal.arr [JsVal.obj [("$lookup", JsVal.obj [("from", JsVal.str "users")])]]) []).storeCalled = false ∧
     ∃ k, k ∈ invalidAggregationKeys ∧
       (aggregateOp (JsVal.arr [JsVal.obj [("$lookup", JsVal.obj [("from", JsVal.str "users")])]]) []).response =
         Response.badRequest [k ++ " is restricted."]) ∧
    ((aggregateOp (JsVal.arr [JsVal.obj [("$match", JsVal.obj [])]]) [JsVal.num 1]).storeCalled = true ∧
     (aggregateOp (JsVal.arr [JsVal.obj [("$match", JsVal.obj [])]]) [JsVal.num 1]).response =
       Response.ok (JsVal.arr [JsVal.num 1])) :=
  ⟨(aggregate_denylist_enforced _ []).1 (by simp [hasRestrictedKey, hasRestrictedKeyList,
      hasRestrictedKeyFields, invalidAggregationKeys]),
   (aggregate_denylist_enforced _ [JsVal.num 1]).2 (by simp [hasRestrictedKey,
      hasRestrictedKeyList, hasRestrictedKeyFields, invalidAggregationKeys])⟩


/-! ### C6: bulk destroy -/

/-- `_.uniq` keeps exactly the members of its input. -/
theorem mem_jsUniq (a : String) : ∀ l : List String, a ∈ jsUniq l ↔ a ∈ l
  | [] => Iff.rfl
  | x :: rest => by
      by_cases hax : a = x
      · subst hax; simp [jsUniq]
      · simp [jsUniq, List.mem_filter, mem_jsUniq a rest, hax]

/-- For a requested id, appearing among the removed ids is the same as
some live document in the store carrying it. -/
theorem removedIds_contains_iff (store : List StoredDoc) (ids : List String)
    (i : String) (hi : i ∈ ids) :
    (((store.filter (fun d => ids.contains d.id && isLive d)).map
        (fun d => d.id)).contains i = true) ↔
    ∃ d ∈ store, d.id = i ∧ isLive d = true := by
  rw [List.elem_iff]
  simp only [List.mem_map, List.mem_filter, Bool.and_eq_true]
  constructor
  · rintro ⟨d, ⟨hd, _, hl⟩, hid⟩
    exact ⟨d, hd, hid, hl⟩
  · rintro ⟨d, hd, hid, hl⟩
    refine ⟨d, ⟨hd, ?_, hl⟩, hid⟩
    rw [List.elem_iff, hid]
    exact hi

/-- C6: every requested live document is physically removed and only
those leave the store; the response is 200 (`Okay` with `{}`) exactly when
every requested id resolved to a live document; otherwise the response is
a 400 naming exactly the requested ids (de-duplicated, in request order)
that could not be removed — and the removals that did succeed stand
either way. -/
theorem bulkDestroy_semantics (store : List StoredDoc) (ids : List String) :
    (∀ d ∈ store, ids.contains d.id = true → isLive d = true →
        d ∉ (bulkRemoveDestroy store ids).2) ∧
    (∀ d ∈ store, ¬(ids.contains d.id = true ∧ isLive d = true) →
        d ∈ (bulkRemoveDestroy store ids).2) ∧
    ((bulkRemoveDestroy store ids).1 = Response.ok (JsVal.obj []) ↔
        ∀ i ∈ ids, ∃ d ∈ store, d.id = i ∧ isLive d = true) ∧
    (¬(∀ i ∈ ids, ∃ d ∈ store, d.id = i ∧ isLive d = true) →
        (bulkRemoveDestroy store ids).1 = Response.badRequest
          ["Could not delete document with id " ++ String.intercalate ","
            ((jsUniq ids).filter
              (fun i => !(store.any (fun d => d.id == i && isLive d))))]) := by
  have hnotRemoved :
      jsDifference (jsUniq ids)
        ((store.filter (fun d => ids.contains d.id && isLive d)).map (fun d => d.id)) =
      (jsUniq ids).filter
        (fun i => !(store.any (fun d => d.id == i && isLive d))) := by
    unfold jsDifference
    apply List.filter_congr
    intro i hi
    have hi2 : i ∈ ids := (mem_jsUniq i ids).mp hi
    have h1 := removedIds_contains_iff store ids i hi2
    have h2 : (store.any (fun d => d.id == i && isLive d) = true) ↔
        ∃ d ∈ store, d.id = i ∧ isLive d = true := by
      simp [List.any_eq_true]
    cases hb : ((store.filter (fun d => ids.contains d.id && isLive d)).map
        (fun d => d.id)).contains i
    · have hnex : ¬∃ d ∈ store, d.id = i ∧ isLive d = true := fun hc => by
        have := h1.mpr hc
        rw [hb] at this
        cases this
      have hb2 : store.any (fun d => d.id == i && isLive d) = false := by
        cases hb2 : store.any (fun d => d.id == i && isLive d)
        · rfl
        · exact absurd (h2.mp hb2) hnex
      simp [hb2]
    · have hb2 : store.any (fun d => d.id == i && isLive d) = true :=
        h2.mpr (h1.mp hb)
      simp [hb2]
  have hsnd : (bulkRemoveDestroy store ids).2 =
      store.filter (fun d => !(ids.contains d.id && isLive d)) := by
    simp only [bulkRemoveDestroy]
    split <;> rfl
  have hfst : (bulkRemoveDestroy store ids).1 =
      if (jsDifference (jsUniq ids)
            ((store.filter (fun d => ids.contains d.id && isLive d)).map
              (fun d => d.id))).isEmpty
      then Response.ok (JsVal.obj [])
      else Response.badRequest
        ["Could not delete document with id " ++ String.intercalate ","
          (jsDifference (jsUniq ids)
            ((store.filter (fun d => ids.contains d.id && isLive d)).map
              (fun d => d.id)))] := by
    simp only [bulkRemoveDestroy]
    split <;> simp_all
  have hempty :
      ((jsDifference (jsUniq ids)
          ((store.filter (fun d => ids.contains d.id && isLive d)).map
            (fun d => d.id))).isEmpty = true) ↔
      ∀ i ∈ ids, ∃ d ∈ store, d.id = i ∧ isLive d = true := by
    rw [List.isEmpty_iff]
    unfold jsDifference
    rw [List.filter_eq_nil_iff]
    constructor
    · intro h i hi
      have h3 := h i ((mem_jsUniq i ids).mpr hi)
      simp at h3
      obtain ⟨d, hd, _, hl, hid⟩ := h3
      exact ⟨d, hd, hid, hl⟩
    · intro h i hi
      have hi2 := (mem_jsUniq i ids).mp hi
      have hc := (removedIds_contains_iff store ids i hi2).mpr (h i hi2)
      intro hcon
      rw [hc] at hcon
      exact absurd hcon (by decide)
  refine ⟨?_, ?_, ?_, ?_⟩
  · intro d hd hc hl
    rw [hsnd]
    intro hmem
    rw [List.mem_filter] at hmem
    rw [hc, hl] at hmem
    simp at hmem
  · intro d hd hnc
    rw [hsnd, List.mem_filter]
    refine ⟨hd, ?_⟩
    cases hcc : ids.contains d.id <;> cases hll : isLive d <;> simp_all
  · constructor
    · intro hok
      rw [hfst] at hok
      by_cases hc : (jsDifference (jsUniq ids)
          ((store.filter (fun d => ids.contains d.id && isLive d)).map
            (fun d => d.id))).isEmpty = true
      · exact hempty.mp hc
      · rw [if_neg (by simpa using hc)] at hok
        exact Response.noConfusion hok
    · intro hall
      rw [hfst, if_pos (by simpa using hempty.mpr hall)]
  · intro hnall
    have hc : (jsDifference (jsUniq ids)
        ((store.filter (fun d => ids.contains d.id && isLive d)).map
          (fun d => d.id))).isEmpty = false := by
      cases hcc : (jsDifference (jsUniq ids)
          ((store.filter (fun d => ids.contains d.id && isLive d)).map
            (fun d => d.id))).isEmpty
      · rfl
      · exact absurd (hempty.mp hcc) hnall
    rw [hfst, if_neg (by rw [hc]; decide), hnotRemoved]

/-- Witness for C6: `bulkDestroy(["a","b","c"])` with only `a` and `c`
stored answers the error naming `b`; `bulkDestroy(["a","c"])` answers
200. -/
theorem bulkDestroy_semantics_witness :
    (bulkRemoveDestroy
        [⟨"a", [], some (injectDefaultsMetadata 0)⟩,
         ⟨"c", [], some (injectDefaultsMetadata 0)⟩] ["a", "b", "c"]).1 =
      Response.badRequest ["Could not delete document with id b"] ∧
    (bulkRemoveDestroy
        [⟨"a", [], some (injectDefaultsMetadata 0)⟩,
         ⟨"c", [], some (injectDefaultsMetadata 0)⟩] ["a", "c"]).1 =
      Response.ok (JsVal.obj []) :=
  ⟨((bulkDestroy_semantics _ _).2.2.2 (by decide)).trans (by rfl),
   (bulkDestroy_semantics _ _).2.2.1.mpr (by decide)⟩

/-! ### C4: the no-op short-circuit of update -/

/-- C4 (counterexample): a payload whose merge leaves the document
unchanged causes no write — the store is untouched — but the `Update`
audit record is still emitted by the second `.then` of `_update`,
contradicting the claim that no audit log is emitted. -/
theorem update_noop_write_still_logs_counterexample :
    jsEqVal
      (jsonRoundTrip (JsVal.obj (mergeFields [("a", JsVal.num 1)]
        (deletePayloadId [("a", JsVal.num 1)]))))
      (jsonRoundTrip (JsVal.obj [("a", JsVal.num 1)])) = true ∧
    (update [⟨"d1", [("a", JsVal.num 1)], some (injectDefaultsMetadata 0)⟩] "d1"
        [("a", JsVal.num 1)] "" 7).store =
      [⟨"d1", [("a", JsVal.num 1)], some (injectDefaultsMetadata 0)⟩] ∧
    (update [⟨"d1", [("a", JsVal.num 1)], some (injectDefaultsMetadata 0)⟩] "d1"
        [("a", JsVal.num 1)] "" 7).auditLogEmitted = true := by
  refine ⟨?_, ?_, ?_⟩ <;>
    simp [update, findOneLive, isLive, injectDefaultsMetadata, deletePayloadId,
      getField, setField, mergeFields, mergeVal, jsonRoundTrip,
      jsonRoundTripFields, jsonRoundTripList, jsEqVal, jsEqFields, jsEqList,
      getResponseObject, jsGetProp, jsAnd, jsOr, truthy]

/-- C4 (amended): when the customized merge of the payload into the live
target round-trips deep-equal to the prior state, `update` performs no
write — the store (hence version and lastUpdated) is unchanged — and
responds 200 with the unchanged merged document, but the `Update` audit
record is still emitted; otherwise the merged document is persisted
through the pre-save hook (version incremented by one, lastUpdated
refreshed) and returned. -/
theorem update_merge_equal_skips_write_but_logs (store : List StoredDoc)
    (rid : String) (body : List (String × JsVal)) (dr : String) (now : Nat)
    (document : StoredDoc) (hfind : findOneLive store rid = some document) :
    (jsEqVal (jsonRoundTrip (JsVal.obj (mergeFields document.data (deletePayloadId body))))
             (jsonRoundTrip (JsVal.obj document.data)) = true →
      (update store rid body dr now).store = store ∧
      (update store rid body dr now).auditLogEmitted = true ∧
      (update store rid body dr now).response =
        Response.ok (getResponseObject dr
          (JsVal.obj (mergeFields document.data (deletePayloadId body))))) ∧
    (jsEqVal (jsonRoundTrip (JsVal.obj (mergeFields document.data (deletePayloadId body))))
             (jsonRoundTrip (JsVal.obj document.data)) = false →
      ∀ m v, document.meta = some m → m.versionDocument = some v →
      ∃ newDoc,
        (update store rid body dr now).store = replaceById store rid newDoc ∧
        newDoc.data = mergeFields document.data (deletePayloadId body) ∧
        newDoc.meta = some { lastUpdated := now, createdAt := m.createdAt,
                             deleted := m.deleted,
                             versionDocument := some (v + 1) } ∧
        (update store rid body dr now).auditLogEmitted = true ∧
        (update store rid body dr now).response =
          Response.ok (getResponseObject dr (JsVal.obj newDoc.data))) := by
  constructor
  · intro heq
    refine ⟨?_, ?_, ?_⟩ <;> simp [update, hfind, heq]
  · intro hne m v hm hv
    refine ⟨preSave { document with
        data := mergeFields document.data (deletePayloadId body) } now,
      ?_, ?_, ?_, ?_, ?_⟩
    · simp [update, hfind, hne]
    · simp [preSave, hm, hv]
    · simp [preSave, hm, hv]
    · simp [update, hfind, hne]
    · simp [update, hfind, hne, preSave, hm, hv]

/-- Witness for C4 (amended): the identical payload takes the no-write
branch; a changed payload takes the persisting branch. -/
theorem update_merge_equal_skips_write_but_logs_witness :
    ((update [⟨"d1", [("a", JsVal.num 1)], some (injectDefaultsMetadata 0)⟩] "d1"
        [("a", JsVal.num 1)] "" 7).store =
      [⟨"d1", [("a", JsVal.num 1)], some (injectDefaultsMetadata 0)⟩] ∧
     (update [⟨"d1", [("a", JsVal.num 1)], some (injectDefaultsMetadata 0)⟩] "d1"
        [("a", JsVal.num 1)] "" 7).auditLogEmitted = true ∧
     (update [⟨"d1", [("a", JsVal.num 1)], some (injectDefaultsMetadata 0)⟩] "d1"
        [("a", JsVal.num 1)] "" 7).response =
       Response.ok (getResponseObject ""
         (JsVal.obj (mergeFields [("a", JsVal.num 1)]
           (deletePayloadId [("a", JsVal.num 1)]))))) ∧
    (∃ newDoc,
      (update [⟨"d1", [("a", JsVal.num 1)], some (injectDefaultsMetadata 0)⟩] "d1"
          [("a", JsVal.num 2)] "" 7).store =
        replaceById [⟨"d1", [("a", JsVal.num 1)], some (injectDefaultsMetadata 0)⟩]
          "d1" newDoc ∧
      newDoc.data = mergeFields [("a", JsVal.num 1)]
        (deletePayloadId [("a", JsVal.num 2)]) ∧
      newDoc.meta = some { lastUpdated := 7, createdAt := 0, deleted := false,
                           versionDocument := some 1 } ∧
      (update [⟨"d1", [("a", JsVal.num 1)], some (injectDefaultsMetadata 0)⟩] "d1"
          [("a", JsVal.num 2)] "" 7).auditLogEmitted = true ∧
      (update [⟨"d1", [("a", JsVal.num 1)], some (injectDefaultsMetadata 0)⟩] "d1"
          [("a", JsVal.num 2)] "" 7).response =
        Response.ok (getResponseObject "" (JsVal.obj newDoc.data))) :=
  ⟨(update_merge_equal_skips_write_but_logs
        [⟨"d1", [("a", JsVal.num 1)], some (injectDefaultsMetadata 0)⟩] "d1"
        [("a", JsVal.num 1)] "" 7
        ⟨"d1", [("a", JsVal.num 1)], some (injectDefaultsMetadata 0)⟩ rfl).1
      (by simp [mergeFields, mergeVal, setField, getField, deletePayloadId,
        jsonRoundTrip, jsonRoundTripFields, jsonRoundTripList, jsEqVal,
        jsEqFields, jsEqList, truthy]),
   (update_merge_equal_skips_write_but_logs
        [⟨"d1", [("a", JsVal.num 1)], some (injectDefaultsMetadata 0)⟩] "d1"
        [("a", JsVal.num 2)] "" 7
        ⟨"d1", [("a", JsVal.num 1)], some (injectDefaultsMetadata 0)⟩ rfl).2
      (by simp [mergeFields, mergeVal, setField, getField, deletePayloadId,
        jsonRoundTrip, jsonRoundTripFields, jsonRoundTripList, jsEqVal,
        jsEqFields, jsEqList, truthy])
      (injectDefaultsMetadata 0) 0 rfl rfl⟩
